import Mathlib

/-!
Verification of the DDR keyword risk processor (`kw_processor.py`).

The embedding models spreadsheet cells as a tagged union (string, timestamp,
other scalar, empty/NaN), a sheet as a rectangular grid of cells, and
translates each function of the source file into a Lean definition with the
same name.  String operations of Python (`lower`, `upper`, `strip`, the `in`
substring test, `str.join`) are modelled over the character list of the
string; whitespace and digit classes follow Python's ASCII ranges.
-/

namespace KWP

/-- A spreadsheet timestamp (`pd.Timestamp`), with the fields used by the
formatting directives `%Y-%m-%d %H:%M` of the source. -/
structure Timestamp where
  year : Nat
  month : Nat
  day : Nat
  hour : Nat
  minute : Nat
deriving DecidableEq

/-- A cell value as seen by the source: a string, a timestamp, some other
non-missing scalar (numbers etc., carried as its `str()` rendering), or a
missing value (`NaN`/`None`, for which `pd.isna` holds). -/
inductive Cell where
  | str (s : String)
  | ts (t : Timestamp)
  | other (r : String)
  | empty
deriving DecidableEq

/-- A loaded sheet: `nrows = len(df)`, `ncols = len(df.columns)`, and
`cell i j = df.iloc[i, j]`. -/
structure Grid where
  nrows : Nat
  ncols : Nat
  cell : Nat → Nat → Cell

/-- Python's `\s` class / `str.strip` default set, ASCII range. -/
def pySpace (c : Char) : Bool :=
  c == ' ' || c == '\t' || c == '\n' || c == '\r' || c == Char.ofNat 11 || c == Char.ofNat 12

/-- `str.lower` (ASCII range). -/
def lowerStr (s : String) : String :=
  String.mk (s.data.map Char.toLower)

/-- `str.upper` (ASCII range). -/
def upperStr (s : String) : String :=
  String.mk (s.data.map Char.toUpper)

/-- `str.strip()`. -/
def stripStr (s : String) : String :=
  String.mk (((s.data.dropWhile pySpace).reverse.dropWhile pySpace).reverse)

/-- Auxiliary scan for the substring test: does `needle` occur contiguously
in the list? -/
def containsAux (needle : List Char) : List Char → Bool
  | [] => needle.isPrefixOf []
  | c :: rest => needle.isPrefixOf (c :: rest) || containsAux needle rest

/-- Python's `needle in hay` substring containment. -/
def strContains (hay needle : String) : Bool :=
  containsAux needle.data hay.data

/-- `%02d` rendering of a field. -/
def pad2 (n : Nat) : String :=
  if n < 10 then ("0") ++ toString n else toString n

/-- `%Y` rendering (zero padded to four digits). -/
def pad4 (n : Nat) : String :=
  if n < 10 then ("000") ++ toString n
  else if n < 100 then ("00") ++ toString n
  else if n < 1000 then ("0") ++ toString n
  else toString n

/-- `strftime('%Y-%m-%d %H:%M')`. -/
def fmtFull (t : Timestamp) : String :=
  pad4 t.year ++ "-" ++ pad2 t.month ++ "-" ++ pad2 t.day ++ " " ++ pad2 t.hour ++ ":" ++ pad2 t.minute

/-- `strftime('%H:%M')`. -/
def fmtHM (t : Timestamp) : String :=
  pad2 t.hour ++ ":" ++ pad2 t.minute

/-- The rendering the source gives the first time cell (`time_from`): the
full timestamp format for a timestamp, `str(value)` for any other
non-missing value, and the empty string when missing. -/
def timeFromStr (c : Cell) : String :=
  match c with
  | Cell.empty => ""
  | Cell.ts t => fmtFull t
  | Cell.str s => s
  | Cell.other r => r

/-- The rendering the source gives the second time cell (`time_to`):
`%H:%M` for a timestamp, `str(value)` otherwise. -/
def timeToStr (c : Cell) : String :=
  match c with
  | Cell.empty => ""
  | Cell.ts t => fmtHM t
  | Cell.str s => s
  | Cell.other r => r

/-- The time/date formatting block of `find_operations_data` (source lines
93-103): build `time_str` from `time_from`, then append ` to ...` for
`time_to` — unconditionally for a timestamp, and only when `time_str` is
non-empty (truthy) for any other non-missing value. -/
def fmtTime (c0 c1 : Cell) : String :=
  let s := timeFromStr c0
  match c1 with
  | Cell.empty => s
  | Cell.ts t => s ++ " to " ++ fmtHM t
  | Cell.str s1 => if s == "" then s else s ++ " to " ++ s1
  | Cell.other r => if s == "" then s else s ++ " to " ++ r

/-- A non-missing, non-timestamp cell (a "plain" value in the spec's words). -/
def plainCell (c : Cell) : Bool :=
  match c with
  | Cell.str _ => true
  | Cell.other _ => true
  | _ => false

/-- The fixed keyword list `RISK_KEYWORDS` of the source. -/
def RISK_KEYWORDS : List String :=
  ["High TRQ", "Torque", "Stuck", "String vibration", "Mud loss", "Mud gain",
   "Drag", "String installation", "String running", "Washout", "Hole problems",
   "Differential sticking", "Pack-off", "Kick", "Well control"]

/-- `search_keywords`: lower-case the text, keep every keyword whose
lower-casing occurs in it (source lines 113-120). -/
def search_keywords (text : String) (keywords : List String) : List String :=
  keywords.filter (fun kw => strContains (lowerStr text) (lowerStr kw))

/-- Does this cell trigger the header test
`isinstance(v, str) and 'DETAILS OF OPERATIONS' in v.upper()`? -/
def opsHeaderMatch (c : Cell) : Bool :=
  match c with
  | Cell.str s => strContains (upperStr s) ("DETAILS OF OPERATIONS")
  | _ => false

/-- The nested row-major loop of `find_operations_column`: for each row
index in the list, scan all columns; return the first hit. -/
def opsScanRows (df : Grid) : List Nat → Option (Nat × Nat)
  | [] => none
  | i :: rest =>
    match (List.range df.ncols).find? (fun j => opsHeaderMatch (df.cell i j)) with
    | some j => some (i, j)
    | none => opsScanRows df rest

/-- The position (row, column) of the first header hit in row-major order
over the first `min 100 nrows` rows. -/
def opsColumn? (df : Grid) : Option (Nat × Nat) :=
  opsScanRows df (List.range (min 100 df.nrows))

/-- `find_operations_column` (source lines 45-52): the column of the first
matching cell, or the sentinel `-1`. -/
def find_operations_column (df : Grid) : Int :=
  match opsColumn? df with
  | some p => (p.2 : Int)
  | none => -1

/-- The header-row search of `find_operations_data` (source lines 63-68):
first row among the first `min 100 nrows` whose cell in the operations
column matches the header test. -/
def headerRow (df : Grid) (col : Nat) : Option Nat :=
  (List.range (min 100 df.nrows)).find? (fun i => opsHeaderMatch (df.cell i col))

/-- Is the narrative cell a non-missing string with non-blank content?
(The skip test of source line 81, negated.) -/
def validNarrative (c : Cell) : Bool :=
  match c with
  | Cell.str s => !(stripStr s == "")
  | _ => false

/-- One emitted row of `find_operations_data` per input row. -/
structure OpRow where
  time_date : String
  details : String
deriving DecidableEq

/-- The body of the data loop of `find_operations_data` (source lines
76-108) for one row: skip unless the narrative cell is a non-blank string,
otherwise emit the formatted time of columns 0 and 1 with the narrative. -/
def rowEntry (df : Grid) (col i : Nat) : Option OpRow :=
  match df.cell i col with
  | Cell.str s =>
    if stripStr s == "" then none
    else some { time_date := fmtTime (df.cell i 0) (df.cell i 1), details := s }
  | _ => none

/-- The entry `rowEntry` would build for a row, ignoring validity. -/
def mkRow (df : Grid) (col i : Nat) : OpRow :=
  { time_date := fmtTime (df.cell i 0) (df.cell i 1),
    details := match df.cell i col with | Cell.str s => s | _ => "" }

/-- `find_operations_data` (source lines 55-110): find the header row in
the operations column; if absent return `[]`, else walk the rows from
`header_row + 2` to the end, emitting one entry per non-skipped row. -/
def find_operations_data (df : Grid) (col : Nat) : List OpRow :=
  match headerRow df col with
  | none => []
  | some h => (List.range' (h + 2) (df.nrows - (h + 2))).filterMap (rowEntry df col)

/-- The data rows `find_operations_data` walks: empty when the header is
missing, else all row indices from `header_row + 2` on. -/
def allDataRows (df : Grid) (col : Nat) : List Nat :=
  match headerRow df col with
  | none => []
  | some h => List.range' (h + 2) (df.nrows - (h + 2))

/-- One row of the accumulated result table. -/
structure RiskMatch where
  report_number : String
  time_date : String
  risks : String
deriving DecidableEq

/-- The per-sheet body of `process_ddr_file` (source lines 134-152): locate
the operations column (skip the sheet on the `-1` sentinel), extract the
operation rows, and emit one `RiskMatch` per row with at least one keyword
hit, with the matched keywords joined by `", "`. -/
def process_sheet (report : String) (df : Grid) (keywords : List String) : List RiskMatch :=
  match opsColumn? df with
  | none => []
  | some p =>
    (find_operations_data df p.2).filterMap (fun op =>
      let ms := search_keywords op.details keywords
      if ms.isEmpty then none
      else some { report_number := report, time_date := op.time_date,
                  risks := String.intercalate (", ") ms })

/-- `stem` of `pathlib`: the filename with its final suffix removed, where
a suffix needs a dot at an index `i` with `0 < i < len - 1`. -/
def stem (f : String) : String :=
  let cs := f.data
  match (cs.reverse.findIdx? (fun c => c == '.')) with
  | some k =>
    let i := cs.length - 1 - k
    if 0 < i && i < cs.length - 1 then String.mk (cs.take i) else f
  | none => f

/-- The digit group `(\d+)`: greedily take ASCII digits, failing on none. -/
def digitsAt (cs : List Char) : Option (List Char) :=
  let ds := cs.takeWhile Char.isDigit
  if ds.isEmpty then none else some ds

/-- The `#?\s*` part between `DDR\s*` and the digit group: consume an
optional hash and the whitespace after it. -/
def ddrTail (t1 : List Char) : List Char :=
  match t1 with
  | '#' :: u => u.dropWhile pySpace
  | _ => t1

/-- First alternation branch `DDR\s*#?\s*(\d+)` (with `re.IGNORECASE`)
anchored at the head of the list. -/
def afterDDR (cs : List Char) : Option (List Char) :=
  match cs with
  | a :: b :: c :: t =>
    if a.toLower == 'd' && b.toLower == 'd' && c.toLower == 'r' then
      digitsAt (ddrTail (t.dropWhile pySpace))
    else none
  | _ => none

/-- Second alternation branch `#\s*(\d+)` anchored at the head of the list. -/
def afterHash (cs : List Char) : Option (List Char) :=
  match cs with
  | '#' :: t => digitsAt (t.dropWhile pySpace)
  | _ => none

/-- The anchored match of `(?:DDR\s*#?\s*|#\s*)(\d+)`: try the first branch,
then the second. -/
def matchAt (cs : List Char) : Option (List Char) :=
  match afterDDR cs with
  | some ds => some ds
  | none => afterHash cs

/-- `re.search`: try the anchored match at each start position, left to
right. -/
def ddrSearch : List Char → Option (List Char)
  | [] => none
  | c :: t =>
    match matchAt (c :: t) with
    | some ds => some ds
    | none => ddrSearch t

/-- `extract_report_number` (source lines 35-42): the digit group of the
regex searched over the filename's stem, else the stem itself. -/
def extract_report_number (filename : String) : String :=
  let st := stem filename
  match ddrSearch st.data with
  | some ds => String.mk ds
  | none => st

/-- `process_ddr_file` (source lines 123-154) over the sheets of one
loaded workbook. -/
def process_ddr_file (name : String) (sheets : List Grid) (keywords : List String) : List RiskMatch :=
  (sheets.map (fun df => process_sheet (extract_report_number name) df keywords)).flatten

/-- One input file as the driver sees it: reading it either yields its
sheets or raises (modelled as `Except.error` with the exception text). -/
structure ExcelSource where
  name : String
  content : Except String (List Grid)

/-- `process_all_files` (source lines 157-173): process the files in
order, catching a per-file failure, and return the concatenated matches
together with the console log lines. -/
def process_all_files (keywords : List String) : List ExcelSource → List RiskMatch × List String
  | [] => ([], [])
  | f :: rest =>
    let tail := process_all_files keywords rest
    match f.content with
    | Except.ok sheets =>
      let rs := process_ddr_file f.name sheets keywords
      (rs ++ tail.1,
       (("Processing: ") ++ f.name) ::
       (("  Found ") ++ toString rs.length ++ " risk entries") :: tail.2)
    | Except.error e =>
      (tail.1,
       (("Processing: ") ++ f.name) ::
       (("  Error processing file: ") ++ e) :: tail.2)

/-- A workbook on disk: named sheets, each holding a written table. -/
structure Workbook where
  sheets : List (String × List RiskMatch)
deriving DecidableEq

/-- The filesystem as `save_results` touches it: path to workbook. -/
structure FS where
  files : List (String × Workbook)
deriving DecidableEq

/-- Look a path up. -/
def fsGet (fs : FS) (path : String) : Option Workbook :=
  (fs.files.find? (fun pr => pr.1 == path)).map (fun pr => pr.2)

/-- Store a workbook at a path (replacing an existing entry). -/
def fsSet (fs : FS) (path : String) (wb : Workbook) : FS :=
  if (fs.files.find? (fun pr => pr.1 == path)).isSome then
    ⟨fs.files.map (fun pr => if pr.1 == path then (path, wb) else pr)⟩
  else ⟨fs.files ++ [(path, wb)]⟩

/-- `if_sheet_exists='replace'`: overwrite the sheet of that name, or add
it. -/
def replaceSheet (wb : Workbook) (sheetName : String) (tbl : List RiskMatch) : Workbook :=
  if (wb.sheets.find? (fun pr => pr.1 == sheetName)).isSome then
    ⟨wb.sheets.map (fun pr => if pr.1 == sheetName then (sheetName, tbl) else pr)⟩
  else ⟨wb.sheets ++ [(sheetName, tbl)]⟩

/-- `save_results` (source lines 176-190): on an empty table print an
informational line and return without writing; otherwise create the file
or append-replace the sheet, and report the save. -/
def save_results (tbl : List RiskMatch) (output_path sheet_name : String) (fs : FS) : FS × List String :=
  if tbl.isEmpty then (fs, [("No results to save.")])
  else
    match fsGet fs output_path with
    | some wb =>
      (fsSet fs output_path (replaceSheet wb sheet_name tbl),
       [("Results saved to: ") ++ output_path])
    | none =>
      (fsSet fs output_path ⟨[(sheet_name, tbl)]⟩,
       [("Results saved to: ") ++ output_path])

/-- A small concrete sheet: header cell in row 0, column 2; the assumed
sub-header row below it; one narrative data row with two time cells. -/
def exGrid : Grid where
  nrows := 4
  ncols := 3
  cell := fun i j =>
    match i, j with
    | 0, 2 => Cell.str ("Details of Operations in Sequence and Remarks")
    | 1, 0 => Cell.str ("FROM")
    | 1, 1 => Cell.str ("TO")
    | 2, 0 => Cell.str ("01:00")
    | 2, 1 => Cell.str ("02:00")
    | 2, 2 => Cell.str ("Observed high torque and signs of stuck pipe")
    | _, _ => Cell.empty

/-- A sheet with no operations header anywhere. -/
def gNoHeader : Grid where
  nrows := 2
  ncols := 2
  cell := fun _ _ => Cell.empty

/-- A file whose read raises (a corrupt workbook). -/
def fBad : ExcelSource where
  name := "bad.xlsx"
  content := Except.error ("boom")

/-- A readable file holding the example sheet. -/
def fGood : ExcelSource where
  name := "DDR #1.xlsx"
  content := Except.ok [exGrid]

/-- Claim C1: for every narrative string and every keyword list, a keyword
is in the result of `search_keywords` exactly when it is in the keyword
list and its lower-casing is a substring of the lower-cased narrative;
in particular the narrative "STUCK pipe" matches the keyword "Stuck". -/
theorem search_keywords_mem_iff :
    (∀ (text : String) (keywords : List String) (kw : String),
      kw ∈ search_keywords text keywords ↔
        kw ∈ keywords ∧ strContains (lowerStr text) (lowerStr kw) = true) ∧
    "Stuck" ∈ search_keywords ("STUCK pipe") RISK_KEYWORDS := by
  constructor
  · intro text keywords kw
    simp [search_keywords, List.mem_filter]
  · decide

/-- Witness for C1 at a concrete narrative and keyword list. -/
theorem search_keywords_mem_iff_app :
    "Stuck" ∈ search_keywords ("Noted STUCK pipe") ["Torque", "Stuck"] := by
  exact (search_keywords_mem_iff.1 ("Noted STUCK pipe") ["Torque", "Stuck"] "Stuck").mpr
    (by decide)

/-- Claim C2: `search_keywords` returns all matching keywords in
keyword-list order (its result is a sublist of the keyword list), the
example narrative with keywords ["Torque", "Stuck"] yields both keywords,
and the emitted risk string joins them with ", " — also end to end through
`process_sheet` on a concrete sheet. -/
theorem search_keywords_order_and_join :
    (∀ (text : String) (keywords : List String),
      (search_keywords text keywords).Sublist keywords) ∧
    search_keywords ("Observed high torque and signs of stuck pipe")
      ["Torque", "Stuck"] = ["Torque", "Stuck"] ∧
    String.intercalate (", ")
      (search_keywords ("Observed high torque and signs of stuck pipe")
        ["Torque", "Stuck"]) = "Torque, Stuck" ∧
    process_sheet ("R1") exGrid ["Torque", "Stuck"] =
      [{ report_number := "R1", time_date := "01:00 to 02:00",
         risks := "Torque, Stuck" }] := by
  refine ⟨fun text keywords => List.filter_sublist keywords, by decide, by decide, by decide⟩

/-- Witness for C2 at a concrete narrative and keyword list. -/
theorem search_keywords_order_and_join_app :
    (search_keywords ("torque while stuck") ["Torque", "Stuck"]).Sublist
      ["Torque", "Stuck"] := by
  exact search_keywords_order_and_join.1 ("torque while stuck") ["Torque", "Stuck"]

/-- Claim C8: on an empty result table, `save_results` writes nothing (the
filesystem is returned unchanged) and reports the informational line. -/
theorem save_results_empty_noop :
    ∀ (output_path sheet_name : String) (fs : FS),
      save_results [] output_path sheet_name fs = (fs, [("No results to save.")]) := by
  intro output_path sheet_name fs
  rfl

/-- Witness for C8 at a concrete filesystem. -/
theorem save_results_empty_noop_app :
    save_results [] ("risk_analysis.xlsx") ("Risk Analysis")
        ⟨[("old.xlsx", ⟨[]⟩)]⟩ =
      (⟨[("old.xlsx", ⟨[]⟩)]⟩, [("No results to save.")]) := by
  exact save_results_empty_noop ("risk_analysis.xlsx") ("Risk Analysis") ⟨[("old.xlsx", ⟨[]⟩)]⟩

/-- Claim C10: with the first time cell missing, a timestamp in the second
cell still yields a non-empty time string of the shape " to HH:MM", while
a plain (non-timestamp) second value leaves the time field empty. -/
theorem fmtTime_missing_start_spec :
    (∀ t : Timestamp, fmtTime Cell.empty (Cell.ts t) = (" to ") ++ fmtHM t) ∧
    fmtTime Cell.empty (Cell.ts ⟨2024, 1, 2, 3, 4⟩) = " to 03:04" ∧
    (" to 03:04" : String) ≠ "" ∧
    (∀ s : String, fmtTime Cell.empty (Cell.str s) = "") ∧
    (∀ r : String, fmtTime Cell.empty (Cell.other r) = "") := by
  refine ⟨fun t => rfl, by decide, by decide, fun s => rfl, fun r => rfl⟩

/-- Witness for C10 at a concrete timestamp. -/
theorem fmtTime_missing_start_spec_app :
    fmtTime Cell.empty (Cell.ts ⟨2024, 5, 6, 7, 8⟩) = " to 07:08" := by
  have h := fmtTime_missing_start_spec.1 ⟨2024, 5, 6, 7, 8⟩
  rw [h]
  decide

/-- Claim C6 fails as stated: with the first time cell a present but empty
string and the second a plain value, the two values are not concatenated
with " to " — the code leaves the time field empty. -/
theorem fmtTime_claim_counterexample :
    fmtTime (Cell.str ("")) (Cell.str ("x")) = "" ∧
    timeFromStr (Cell.str ("")) ++ (" to ") ++ timeToStr (Cell.str ("x")) = " to x" ∧
    (("" : String) ≠ " to x") := by
  refine ⟨rfl, rfl, by decide⟩

/-- Claim C6 (amended): two timestamps render as "start to end-time"; two
present values, at least one plain, concatenate as "value to value"
provided the first cell's rendering is non-empty; when the second value is
plain and the first cell renders as the empty string, the second value is
dropped and the field is empty; with both cells missing the field is
empty. -/
theorem fmtTime_amended_spec :
    (∀ t0 t1 : Timestamp,
      fmtTime (Cell.ts t0) (Cell.ts t1) = fmtFull t0 ++ (" to ") ++ fmtHM t1) ∧
    (∀ c0 c1 : Cell, c0 ≠ Cell.empty → c1 ≠ Cell.empty →
      (plainCell c0 = true ∨ plainCell c1 = true) → timeFromStr c0 ≠ "" →
      fmtTime c0 c1 = timeFromStr c0 ++ (" to ") ++ timeToStr c1) ∧
    (∀ c0 c1 : Cell, plainCell c1 = true → timeFromStr c0 = "" →
      fmtTime c0 c1 = "") ∧
    fmtTime Cell.empty Cell.empty = "" := by
  refine ⟨fun t0 t1 => rfl, ?_, ?_, rfl⟩
  · intro c0 c1 h0 h1 hp hs
    have hb : (timeFromStr c0 == "") = false := by
      simp [hs]
    cases c1 with
    | empty => exact absurd rfl h1
    | ts t => rfl
    | str s1 => simp [fmtTime, timeToStr, hb]
    | other r => simp [fmtTime, timeToStr, hb]
  · intro c0 c1 hp hs
    have hb : (timeFromStr c0 == "") = true := by
      simp [hs]
    cases c1 with
    | empty => simp [plainCell] at hp
    | ts t => simp [plainCell] at hp
    | str s1 => simp [fmtTime, hb, hs]
    | other r => simp [fmtTime, hb, hs]

/-- Witness for the amended C6 at two concrete plain time values. -/
theorem fmtTime_amended_spec_app :
    fmtTime (Cell.str ("08:00")) (Cell.str ("09:30")) = "08:00 to 09:30" := by
  have h := fmtTime_amended_spec.2.1 (Cell.str ("08:00")) (Cell.str ("09:30"))
    (by decide) (by decide) (Or.inl (by decide)) (by decide)
  rw [h]
  decide

theorem filterMap_if_eq_map_filter {α β : Type} (p : α → Bool) (g : α → β)
    (f : α → Option β) (hf : ∀ a, f a = if p a then some (g a) else none) :
    ∀ l : List α, l.filterMap f = (l.filter p).map g := by
  intro l
  induction l with
  | nil => rfl
  | cons a t ih =>
    by_cases hp : p a = true
    · simp [List.filterMap_cons, List.filter_cons, hf, hp, ih]
    · simp [List.filterMap_cons, List.filter_cons, hf, hp, ih]

theorem rowEntry_eq_ite (df : Grid) (col i : Nat) :
    rowEntry df col i =
      if validNarrative (df.cell i col) then some (mkRow df col i) else none := by
  unfold rowEntry validNarrative mkRow
  cases h : df.cell i col with
  | str s =>
    by_cases hs : (stripStr s == "") = true
    · simp [hs]
    · simp [hs]
  | ts t => rfl
  | other r => rfl
  | empty => rfl

theorem fod_eq_filter_map (df : Grid) (col : Nat) :
    find_operations_data df col =
      ((allDataRows df col).filter (fun i => validNarrative (df.cell i col))).map
        (mkRow df col) := by
  unfold find_operations_data allDataRows
  cases h : headerRow df col with
  | none => rfl
  | some hr =>
    exact filterMap_if_eq_map_filter _ _ _ (fun i => rowEntry_eq_ite df col i) _

theorem find?_range'_some (p : Nat → Bool) :
    ∀ (n s j : Nat), (List.range' s n).find? p = some j →
      s ≤ j ∧ j < s + n ∧ p j = true ∧ ∀ k, s ≤ k → k < j → p k = false := by
  intro n
  induction n with
  | zero =>
    intro s j h
    simp [List.range'] at h
  | succ m ih =>
    intro s j h
    rw [List.range'_succ] at h
    by_cases hp : p s = true
    · rw [List.find?_cons_of_pos _ hp] at h
      obtain rfl : s = j := by simpa using h
      exact ⟨Nat.le_refl s, by omega, hp, fun k h1 h2 => absurd (Nat.lt_of_le_of_lt h1 h2) (Nat.lt_irrefl s)⟩
    · rw [List.find?_cons_of_neg _ (by simpa using hp)] at h
      obtain ⟨h1, h2, h3, h4⟩ := ih (s + 1) j h
      refine ⟨by omega, by omega, h3, ?_⟩
      intro k hk1 hk2
      rcases Nat.eq_or_lt_of_le hk1 with heq | hlt
      · rw [← heq]
        exact Bool.eq_false_iff.mpr hp
      · exact h4 k hlt hk2

theorem find?_range'_none (p : Nat → Bool) (n s : Nat)
    (h : (List.range' s n).find? p = none) :
    ∀ k, s ≤ k → k < s + n → p k = false := by
  intro k h1 h2
  have hm : k ∈ List.range' s n := by
    rw [List.mem_range'_1]
    omega
  have := List.find?_eq_none.mp h k hm
  exact Bool.eq_false_iff.mpr this

theorem find?_range'_none_of_all (p : Nat → Bool) (n s : Nat)
    (h : ∀ k, s ≤ k → k < s + n → p k = false) :
    (List.range' s n).find? p = none := by
  rw [List.find?_eq_none]
  intro k hm
  rw [List.mem_range'_1] at hm
  rw [h k hm.1 hm.2]
  exact Bool.false_ne_true

theorem opsScanRows_some (df : Grid) :
    ∀ (n s i j : Nat), opsScanRows df (List.range' s n) = some (i, j) →
      s ≤ i ∧ i < s + n ∧ j < df.ncols ∧ opsHeaderMatch (df.cell i j) = true ∧
      (∀ i', s ≤ i' → i' < i → ∀ j', j' < df.ncols →
        opsHeaderMatch (df.cell i' j') = false) ∧
      (∀ j', j' < j → opsHeaderMatch (df.cell i j') = false) := by
  intro n
  induction n with
  | zero =>
    intro s i j h
    simp [List.range', opsScanRows] at h
  | succ m ih =>
    intro s i j h
    rw [List.range'_succ] at h
    unfold opsScanRows at h
    cases hrow : (List.range df.ncols).find? (fun j => opsHeaderMatch (df.cell s j)) with
    | some j0 =>
      rw [hrow] at h
      have h' : some (s, j0) = some (i, j) := h
      have hs : s = i := congrArg Prod.fst (Option.some.inj h')
      have hj0 : j0 = j := congrArg Prod.snd (Option.some.inj h')
      subst hs
      subst hj0
      have hj := find?_range'_some (fun j => opsHeaderMatch (df.cell s j)) df.ncols 0 j0
        (by rwa [← List.range_eq_range'])
      refine ⟨Nat.le_refl s, by omega, by omega, hj.2.2.1, ?_, ?_⟩
      · intro i' h1 h2
        exact absurd (Nat.lt_of_le_of_lt h1 h2) (Nat.lt_irrefl s)
      · intro j' hj'
        exact hj.2.2.2 j' (Nat.zero_le j') hj'
    | none =>
      rw [hrow] at h
      obtain ⟨h1, h2, h3, h4, h5, h6⟩ := ih (s + 1) i j h
      have hs : ∀ j', j' < df.ncols → opsHeaderMatch (df.cell s j') = false := by
        intro j' hj'
        exact find?_range'_none _ df.ncols 0 (by rwa [← List.range_eq_range']) j'
          (Nat.zero_le j') (by omega)
      refine ⟨by omega, by omega, h3, h4, ?_, h6⟩
      intro i' hi1 hi2 j' hj'
      rcases Nat.eq_or_lt_of_le hi1 with heq | hlt
      · rw [← heq]
        exact hs j' hj'
      · exact h5 i' hlt hi2 j' hj'

theorem opsScanRows_none (df : Grid) :
    ∀ (n s : Nat), opsScanRows df (List.range' s n) = none →
      ∀ i, s ≤ i → i < s + n → ∀ j, j < df.ncols →
        opsHeaderMatch (df.cell i j) = false := by
  intro n
  induction n with
  | zero =>
    intro s h i h1 h2
    omega
  | succ m ih =>
    intro s h i h1 h2 j hj
    rw [List.range'_succ] at h
    unfold opsScanRows at h
    cases hrow : (List.range df.ncols).find? (fun j => opsHeaderMatch (df.cell s j)) with
    | some j0 =>
      rw [hrow] at h
      exact absurd h (by simp)
    | none =>
      rw [hrow] at h
      rcases Nat.eq_or_lt_of_le h1 with heq | hlt
      · rw [← heq]
        exact find?_range'_none _ df.ncols 0 (by rwa [← List.range_eq_range']) j
          (Nat.zero_le j) (by omega)
      · exact ih (s + 1) h i hlt (by omega) j hj

theorem opsScanRows_none_of_all (df : Grid) :
    ∀ (n s : Nat),
      (∀ i, s ≤ i → i < s + n → ∀ j, j < df.ncols →
        opsHeaderMatch (df.cell i j) = false) →
      opsScanRows df (List.range' s n) = none := by
  intro n
  induction n with
  | zero =>
    intro s h
    simp [List.range', opsScanRows]
  | succ m ih =>
    intro s h
    rw [List.range'_succ]
    unfold opsScanRows
    have hrow : (List.range df.ncols).find? (fun j => opsHeaderMatch (df.cell s j)) = none := by
      rw [List.range_eq_range']
      exact find?_range'_none_of_all _ df.ncols 0
        (fun k _ hk => h s (Nat.le_refl s) (by omega) k (by omega))
    rw [hrow]
    exact ih (s + 1) (fun i h1 h2 j hj => h i (by omega) (by omega) j hj)

/-- Claim C3: `find_operations_data` emits exactly the rows after the
header whose narrative cell passes the validity test, and that test holds
only for string cells with non-blank content — empty, blank, timestamp,
other-scalar and missing narrative cells are all excluded, whatever the
two time columns hold. -/
theorem find_operations_data_skips_blank (df : Grid) (col : Nat) :
    find_operations_data df col =
      ((allDataRows df col).filter (fun i => validNarrative (df.cell i col))).map
        (mkRow df col) ∧
    (∀ s, validNarrative (Cell.str s) = !(stripStr s == "")) ∧
    (∀ t, validNarrative (Cell.ts t) = false) ∧
    (∀ r, validNarrative (Cell.other r) = false) ∧
    validNarrative Cell.empty = false := by
  exact ⟨fod_eq_filter_map df col, fun s => rfl, fun t => rfl, fun r => rfl, rfl⟩

/-- Witness for C3 on the concrete example sheet: the blank rows around
the narrative row are dropped. -/
theorem find_operations_data_skips_blank_app :
    find_operations_data exGrid 2 =
      ((allDataRows exGrid 2).filter (fun i => validNarrative (exGrid.cell i 2))).map
        (mkRow exGrid 2) := by
  exact (find_operations_data_skips_blank exGrid 2).1

/-- Claim C7: `find_operations_data` returns the empty list when the
header is not found in the operations column within the first 100 rows;
when it is found at row `h` (the first matching row), the data read starts
exactly at `h + 2` and one row is emitted per non-skipped narrative row,
in row order. -/
theorem find_operations_data_start_spec (df : Grid) (col : Nat) :
    (headerRow df col = none → find_operations_data df col = []) ∧
    (headerRow df col = none ↔
      ∀ i, i < min 100 df.nrows → opsHeaderMatch (df.cell i col) = false) ∧
    (∀ h, headerRow df col = some h →
      h < min 100 df.nrows ∧ opsHeaderMatch (df.cell h col) = true ∧
      (∀ i, i < h → opsHeaderMatch (df.cell i col) = false) ∧
      find_operations_data df col =
        ((List.range' (h + 2) (df.nrows - (h + 2))).filter
          (fun i => validNarrative (df.cell i col))).map (mkRow df col)) := by
  refine ⟨?_, ?_, ?_⟩
  · intro h
    unfold find_operations_data
    rw [h]
  · constructor
    · intro h i hi
      unfold headerRow at h
      rw [List.range_eq_range'] at h
      exact find?_range'_none _ _ 0 h i (Nat.zero_le i) (by omega)
    · intro h
      unfold headerRow
      rw [List.range_eq_range']
      exact find?_range'_none_of_all _ _ 0 (fun k _ hk => h k (by omega))
  · intro h hh
    have hf : (List.range' 0 (min 100 df.nrows)).find?
        (fun i => opsHeaderMatch (df.cell i col)) = some h := by
      rw [← List.range_eq_range']
      exact hh
    obtain ⟨h1, h2, h3, h4⟩ := find?_range'_some _ _ 0 h hf
    refine ⟨by omega, h3, fun i hi => h4 i (Nat.zero_le i) hi, ?_⟩
    have := fod_eq_filter_map df col
    rwa [allDataRows, hh] at this

/-- Witness for C7: a sheet without the header yields no rows, and on the
example sheet the data walk starts two rows below the header. -/
theorem find_operations_data_start_spec_app :
    find_operations_data gNoHeader 0 = [] ∧
    find_operations_data exGrid 2 =
      [{ time_date := "01:00 to 02:00",
         details := "Observed high torque and signs of stuck pipe" }] := by
  constructor
  · exact (find_operations_data_start_spec gNoHeader 0).1 (by decide)
  · have h := ((find_operations_data_start_spec exGrid 2).2.2 0 (by decide)).2.2.2
    rw [h]
    decide

/-- Claim C4: `find_operations_column` returns `-1` exactly when no cell
in the first `min 100 nrows` rows matches the header test; otherwise it
returns the column index of the first matching cell in row-major order;
non-string cells never match (they are skipped without error). -/
theorem find_operations_column_spec (df : Grid) :
    (find_operations_column df = -1 ↔
      ∀ i j, i < min 100 df.nrows → j < df.ncols →
        opsHeaderMatch (df.cell i j) = false) ∧
    (∀ i j, opsColumn? df = some (i, j) →
      find_operations_column df = (j : Int) ∧ i < min 100 df.nrows ∧ j < df.ncols ∧
      opsHeaderMatch (df.cell i j) = true ∧
      (∀ i' j', i' < min 100 df.nrows → j' < df.ncols →
        (i' < i ∨ (i' = i ∧ j' < j)) → opsHeaderMatch (df.cell i' j') = false)) ∧
    (∀ t, opsHeaderMatch (Cell.ts t) = false) ∧
    (∀ r, opsHeaderMatch (Cell.other r) = false) ∧
    opsHeaderMatch Cell.empty = false := by
  refine ⟨?_, ?_, fun t => rfl, fun r => rfl, rfl⟩
  · constructor
    · intro h i j hi hj
      unfold find_operations_column at h
      cases hc : opsColumn? df with
      | some p =>
        rw [hc] at h
        have h2 : ((p.2 : Nat) : Int) = -1 := h
        exact absurd h2 (by omega)
      | none =>
        unfold opsColumn? at hc
        rw [List.range_eq_range'] at hc
        exact opsScanRows_none df _ 0 hc i (Nat.zero_le i) (by omega) j hj
    · intro h
      have hc : opsColumn? df = none := by
        unfold opsColumn?
        rw [List.range_eq_range']
        exact opsScanRows_none_of_all df _ 0 (fun i _ hi j hj => h i j (by omega) hj)
      unfold find_operations_column
      rw [hc]
  · intro i j hc
    have hs : opsScanRows df (List.range' 0 (min 100 df.nrows)) = some (i, j) := by
      rw [← List.range_eq_range']
      exact hc
    obtain ⟨h1, h2, h3, h4, h5, h6⟩ := opsScanRows_some df _ 0 i j hs
    refine ⟨?_, by omega, h3, h4, ?_⟩
    · unfold find_operations_column
      rw [hc]
    · intro i' j' hi' hj' hbefore
      rcases hbefore with hlt | ⟨heq, hlt⟩
      · exact h5 i' (Nat.zero_le i') hlt j' hj'
      · rw [heq]
        exact h6 j' hlt

/-- Witness for C4 on the concrete example sheet: the header sits at row
0, column 2, and the function returns 2. -/
theorem find_operations_column_spec_app :
    find_operations_column exGrid = 2 ∧ opsHeaderMatch (exGrid.cell 0 2) = true := by
  have h := (find_operations_column_spec exGrid).2.1 0 2 (by decide)
  exact ⟨h.1, h.2.2.2.1⟩

theorem takeWhile_all_sat (p : Char → Bool) :
    ∀ l : List Char, (l.takeWhile p).all p = true := by
  intro l
  induction l with
  | nil => rfl
  | cons a t ih =>
    by_cases hp : p a = true
    · simp [List.takeWhile_cons, hp, ih]
    · simp [List.takeWhile_cons, hp]

theorem digitsAt_spec :
    ∀ cs ds, digitsAt cs = some ds → ds ≠ [] ∧ ds.all Char.isDigit = true := by
  intro cs ds h
  unfold digitsAt at h
  by_cases he : (cs.takeWhile Char.isDigit).isEmpty = true
  · rw [if_pos he] at h
    exact absurd h (by simp)
  · rw [if_neg he] at h
    have hds : cs.takeWhile Char.isDigit = ds := Option.some.inj h
    subst hds
    refine ⟨?_, takeWhile_all_sat Char.isDigit cs⟩
    intro hnil
    apply he
    rw [hnil]
    rfl

theorem afterDDR_spec :
    ∀ cs ds, afterDDR cs = some ds → ds ≠ [] ∧ ds.all Char.isDigit = true := by
  intro cs ds h
  rcases cs with _ | ⟨a, _ | ⟨b, _ | ⟨c, t⟩⟩⟩
  · exact absurd h (by simp [afterDDR])
  · exact absurd h (by simp [afterDDR])
  · exact absurd h (by simp [afterDDR])
  · have h' : (if (a.toLower == 'd' && b.toLower == 'd' && c.toLower == 'r') = true then
        digitsAt (ddrTail (t.dropWhile pySpace)) else none) = some ds := h
    by_cases hg : (a.toLower == 'd' && b.toLower == 'd' && c.toLower == 'r') = true
    · rw [if_pos hg] at h'
      exact digitsAt_spec _ _ h'
    · rw [if_neg hg] at h'
      exact absurd h' (by simp)

theorem afterHash_spec :
    ∀ cs ds, afterHash cs = some ds → ds ≠ [] ∧ ds.all Char.isDigit = true := by
  intro cs ds h
  unfold afterHash at h
  split at h
  · exact digitsAt_spec _ _ h
  · exact absurd h (by simp)

theorem matchAt_spec :
    ∀ cs ds, matchAt cs = some ds → ds ≠ [] ∧ ds.all Char.isDigit = true := by
  intro cs ds h
  unfold matchAt at h
  cases hd : afterDDR cs with
  | some ds0 =>
    rw [hd] at h
    have : ds0 = ds := Option.some.inj h
    subst this
    exact afterDDR_spec _ _ hd
  | none =>
    rw [hd] at h
    exact afterHash_spec _ _ h

theorem ddrSearch_spec :
    ∀ cs ds, ddrSearch cs = some ds → ds ≠ [] ∧ ds.all Char.isDigit = true := by
  intro cs
  induction cs with
  | nil =>
    intro ds h
    exact Option.noConfusion h
  | cons c t ih =>
    intro ds h
    unfold ddrSearch at h
    cases hm : matchAt (c :: t) with
    | some ds0 =>
      rw [hm] at h
      have : ds0 = ds := Option.some.inj h
      subst this
      exact matchAt_spec _ _ hm
    | none =>
      rw [hm] at h
      exact ih ds h

theorem ddrSearch_none_matchAt :
    ∀ cs, ddrSearch cs = none → ∀ n, matchAt (cs.drop n) = none := by
  intro cs
  induction cs with
  | nil =>
    intro _ n
    rw [List.drop_nil]
    rfl
  | cons c t ih =>
    intro h n
    unfold ddrSearch at h
    cases hm : matchAt (c :: t) with
    | some ds =>
      rw [hm] at h
      exact absurd h (by simp)
    | none =>
      rw [hm] at h
      cases n with
      | zero => exact hm
      | succ m =>
        rw [List.drop_succ_cons]
        exact ih h m

/-- Claim C5: `extract_report_number` yields the digit sequence of the
first regex match after "DDR" or "#" (a non-empty, all-digit string), and
falls back to the bare stem when the regex finds no match anywhere in it;
"DDR #42.xlsx" gives "42" and "morning_log.xlsx" gives "morning_log". -/
theorem extract_report_number_spec :
    extract_report_number ("DDR #42.xlsx") = "42" ∧
    extract_report_number ("morning_log.xlsx") = "morning_log" ∧
    (∀ f ds, ddrSearch (stem f).data = some ds →
      extract_report_number f = String.mk ds ∧ ds ≠ [] ∧
        ds.all Char.isDigit = true) ∧
    (∀ f, ddrSearch (stem f).data = none →
      extract_report_number f = stem f ∧
        ∀ n, matchAt ((stem f).data.drop n) = none) := by
  refine ⟨by decide, by decide, ?_, ?_⟩
  · intro f ds h
    refine ⟨?_, ddrSearch_spec _ _ h⟩
    simp [extract_report_number, h]
  · intro f h
    constructor
    · simp [extract_report_number, h]
    · exact ddrSearch_none_matchAt _ h

/-- Witness for C5 at concrete filenames. -/
theorem extract_report_number_spec_app :
    extract_report_number ("DDR 7.xlsx") = "7" := by
  have h := extract_report_number_spec.2.2.1 ("DDR 7.xlsx") ['7'] (by decide)
  exact h.1

/-- Claim C9: the driver's per-file try/except isolates failures — the
final match list is the concatenation, in traversal order, of the results
of the files that read successfully; a file whose read raises contributes
nothing, is logged, and does not stop the remaining files from being
processed. -/
theorem process_all_files_error_isolation (keywords : List String) :
    (∀ files : List ExcelSource,
      (process_all_files keywords files).1 =
        (files.map (fun f =>
          match f.content with
          | Except.ok sheets => process_ddr_file f.name sheets keywords
          | Except.error _ => [])).flatten) ∧
    (∀ (pre post : List ExcelSource) (f : ExcelSource) (e : String),
      f.content = Except.error e →
      (process_all_files keywords (pre ++ f :: post)).1 =
        (process_all_files keywords pre).1 ++ (process_all_files keywords post).1 ∧
      (("  Error processing file: ") ++ e) ∈
        (process_all_files keywords (pre ++ f :: post)).2) := by
  constructor
  · intro files
    induction files with
    | nil => rfl
    | cons f rest ih =>
      cases hc : f.content with
      | ok sheets => simp [process_all_files, hc, ih]
      | error e => simp [process_all_files, hc, ih]
  · intro pre post f e hf
    induction pre with
    | nil =>
      constructor
      · simp [process_all_files, hf]
      · simp [process_all_files, hf]
    | cons g pre' ih =>
      obtain ⟨ih1, ih2⟩ := ih
      constructor
      · cases hc : g.content with
        | ok sheets => simp [process_all_files, hc, ih1]
        | error e2 => simp [process_all_files, hc, ih1]
      · cases hc : g.content with
        | ok sheets => simp [process_all_files, hc, ih2]
        | error e2 => simp [process_all_files, hc, ih2]

/-- Witness for C9: a corrupt first file is skipped and logged while the
readable second file still contributes. -/
theorem process_all_files_error_isolation_app :
    (process_all_files RISK_KEYWORDS [fBad, fGood]).1 =
      (process_all_files RISK_KEYWORDS ([] : List ExcelSource)).1 ++
        (process_all_files RISK_KEYWORDS [fGood]).1 ∧
    ("  Error processing file: boom") ∈
      (process_all_files RISK_KEYWORDS [fBad, fGood]).2 := by
  have h := (process_all_files_error_isolation RISK_KEYWORDS).2 [] [fGood] fBad ("boom") rfl
  exact ⟨h.1, h.2⟩

end KWP
